import Mathlib

/-
Verification of the URI/CID normalization and NFT metadata assembly logic of
cdp_agentkit_core/actions/utils/metadata_utils.py, as a shallow embedding.

Python values of type `str | None` are embedded as `Option String` (`none`
models both Python None and non-string inputs, which every entry point
rejects through the same falsy / isinstance guard).  Python truthiness of
such values is `pyTruthy`.  Python exceptions raised by the embedded code
are embedded through `Except PyErr`.
-/

/-- Python truthiness of a `str | None` value: None and the empty string are
falsy, every other string is truthy. -/
def pyTruthy : Option String → Bool
  | none => false
  | some s => !(s == "")

/-- Rendering of a `str | None` value inside a Python f-string. -/
def pyStr : Option String → String
  | none => "None"
  | some s => s

/-- Python `a or d` on a `str | None` value `a` and a string default `d`. -/
def pyOr (a : Option String) (d : String) : String :=
  match a with
  | none => d
  | some s => if s == "" then d else s

/-- Python str.startswith as a list-level prefix test. -/
def startsWithStr (s p : String) : Bool :=
  p.data.isPrefixOf s.data

/-- Embeds the call url.replace of the one-character pattern '"' by the empty
string: removal of every occurrence of the double-quote character. -/
def removeQuotes (s : String) : String :=
  ⟨s.data.filter (fun c => c ≠ '"')⟩

/-- Embeds Python str.strip of the double-quote character: drop the quote
characters at both ends of the string. -/
def stripQuoteChars (s : String) : String :=
  ⟨((s.data.dropWhile (fun c => c = '"')).reverse.dropWhile (fun c => c = '"')).reverse⟩

/-- Split a character list at the first occurrence of a separator; the second
component is `none` when the separator does not occur. -/
def splitFirst (sep : Char) : List Char → List Char × Option (List Char)
  | [] => ([], none)
  | c :: cs =>
    if c = sep then ([], some cs)
    else
      let r := splitFirst sep cs
      (c :: r.1, r.2)

/-- Embeds Python str.replace with count 1: replace the first occurrence of
the (non-empty) pattern p by r. -/
def replaceFirstList (p r : List Char) : List Char → List Char
  | [] => []
  | c :: cs =>
    if p.isPrefixOf (c :: cs) then r ++ (c :: cs).drop p.length
    else c :: replaceFirstList p r cs

/-- String wrapper of replaceFirstList. -/
def replaceFirst (s p r : String) : String :=
  ⟨replaceFirstList p.data r.data s.data⟩

/-- Fuel-driven core of Python str.replace for a non-empty pattern: scan left
to right, replacing every non-overlapping occurrence of p by r.  Each step
consumes at least one character of the scanned list, so fuel equal to the
length of the list suffices. -/
def replaceAllFuel (p r : List Char) : Nat → List Char → List Char
  | _, [] => []
  | 0, l => l
  | fuel + 1, c :: cs =>
    if p.isPrefixOf (c :: cs) then
      r ++ replaceAllFuel p r fuel ((c :: cs).drop p.length)
    else
      c :: replaceAllFuel p r fuel cs

/-- Embeds Python str.replace (all occurrences) for a non-empty pattern. -/
def replaceAll (s p r : String) : String :=
  ⟨replaceAllFuel p.data r.data s.data.length s.data⟩

/-- Characters allowed after the first character of a URL scheme
(urllib.parse scheme_chars). -/
def isSchemeChar (c : Char) : Bool :=
  c.isAlpha || c.isDigit || c = '+' || c = '-' || c = '.'

/-- A valid URL scheme: a letter followed by scheme characters. -/
def validScheme : List Char → Bool
  | [] => false
  | c :: cs => c.isAlpha && (c :: cs).all isSchemeChar

/-- Result record of the embedded urllib.parse URL splitter. -/
structure ParseResult where
  scheme : String
  netloc : String
  path : String
  query : String
  fragment : String
  deriving DecidableEq

/-- Embedding of urllib.parse.urlparse restricted to the components this
module reads (path and query): split the fragment at the first hash sign,
recognise a scheme before the first colon when it is well formed, take a
netloc after a leading double slash up to the next slash, question mark or
hash sign, and split the query at the first question mark.  The legacy
params component is not separated from the path; the code under verification
only tests whether the path starts with /ipfs/ and reads the query, neither
of which the params split can change for those tests. -/
def urlparse (urlStr : String) : ParseResult :=
  let l := urlStr.data
  let fragSplit := splitFirst '#' l
  let rest := fragSplit.1
  let fragment := (fragSplit.2).getD []
  let colonSplit := splitFirst ':' rest
  let schemeRest : List Char × List Char :=
    match colonSplit.2 with
    | some post =>
      if validScheme colonSplit.1 then (colonSplit.1.map Char.toLower, post)
      else ([], rest)
    | none => ([], rest)
  let netlocRest : List Char × List Char :=
    match schemeRest.2 with
    | '/' :: '/' :: after =>
      (after.takeWhile (fun c => c ≠ '/' && c ≠ '?' && c ≠ '#'),
       after.dropWhile (fun c => c ≠ '/' && c ≠ '?' && c ≠ '#'))
    | other => ([], other)
  let querySplit := splitFirst '?' netlocRest.2
  ⟨⟨schemeRest.1⟩, ⟨netlocRest.1⟩, ⟨querySplit.1⟩, ⟨(querySplit.2).getD []⟩, ⟨fragment⟩⟩

/-- Embeds re.sub of the anchored pattern /ipfs/ by the empty string: drop a
leading /ipfs/ from the path when present. -/
def reSubIpfs (path : String) : String :=
  if startsWithStr path "/ipfs/" then ⟨path.data.drop 6⟩ else path

/-- Embeds is_cid from metadata_utils.py.  In the source the try body is
`return True` (a stand-in for real CID parsing) and can never raise, so the
bafy/Qm regex fallback in the except branch is dead code; the reachable
behaviour is: False exactly on falsy input, True on every non-empty
string. -/
def is_cid (s : Option String) : Bool :=
  if pyTruthy s then true else false

/-- Embeds is_normalized_ipfs_url: the value is a truthy string starting with
ipfs://. -/
def is_normalized_ipfs_url : Option String → Bool
  | none => false
  | some u => pyTruthy (some u) && startsWithStr u "ipfs://"

/-- Embeds is_gateway_ipfs_url: a truthy string, not already normalized,
whose parsed path (after stripping surrounding quote characters) starts with
/ipfs/.  The try/except around urlparse in the source is never triggered
because urlparse does not raise on strings. -/
def is_gateway_ipfs_url : Option String → Bool
  | none => false
  | some u =>
    pyTruthy (some u) &&
      (!is_normalized_ipfs_url (some u) &&
        startsWithStr (urlparse (stripQuoteChars u)).path "/ipfs/")

/-- Embeds is_ipfs_url: normalized or gateway form. -/
def is_ipfs_url (url : Option String) : Bool :=
  pyTruthy url && (is_normalized_ipfs_url url || is_gateway_ipfs_url url)

/-- Embeds is_normalizeable_ipfs_url: IPFS form or CID. -/
def is_normalizeable_ipfs_url (url : Option String) : Bool :=
  pyTruthy url && (is_ipfs_url url || is_cid url)

/-- Embeds normalize_ipfs_url from metadata_utils.py, branch for branch:
reject falsy input, strip embedded double quotes, return already-normalized
input unchanged, prepend ipfs:// to CID-classified input, reject input that
is not an IPFS URL, and rewrite gateway URLs from their parsed path and
query. -/
def normalize_ipfs_url (url : Option String) : Option String :=
  match url with
  | none => none
  | some u0 =>
    if u0 == "" then none
    else
      let u := removeQuotes u0
      if is_normalized_ipfs_url (some u) then some u
      else if is_cid (some u) then some ("ipfs://" ++ u)
      else if !is_ipfs_url (some u) then none
      else if is_gateway_ipfs_url (some u) then
        let parsed := urlparse (replaceFirst u "//" "http://")
        let cid := reSubIpfs parsed.path
        some ("ipfs://" ++ (cid ++ parsed.query))
      else none

/-- The gateway host constant of ipfs_gateway_url. -/
def IPFS_GATEWAY : String := "https://ipfs.io"

/-- Embeds ipfs_gateway_url: reject falsy input, normalize, and on success
replace every occurrence of ipfs:// by the gateway prefix. -/
def ipfs_gateway_url (url : Option String) : Option String :=
  match url with
  | none => none
  | some u =>
    if u == "" then none
    else
      match normalize_ipfs_url (some u) with
      | some n =>
        if n == "" then none
        else some (replaceAll n "ipfs://" (IPFS_GATEWAY ++ "/ipfs/"))
      | none => none

/-- Embeds get_fetchable_url: reject falsy input and plaintext http://,
route IPFS-normalizeable input through ipfs_gateway_url, pass https, data
and blob URIs through unchanged, reject the rest. -/
def get_fetchable_url (uri : Option String) : Option String :=
  match uri with
  | none => none
  | some u =>
    if u == "" then none
    else if startsWithStr u "http://" then none
    else if is_normalizeable_ipfs_url (some u) then ipfs_gateway_url (some u)
    else if startsWithStr u "https:" || startsWithStr u "data:" || startsWithStr u "blob:" then some u
    else none

/-- Python exceptions raised by the embedded code: the ValueError raised by
make_token_metadata (carrying its message), and the AttributeError raised
when a None MIME type is given to a str method. -/
inductive PyErr where
  | valueError : String → PyErr
  | attributeError : PyErr
  deriving DecidableEq

/-- The body of mime_type_to_media for an actual string argument: map the
MIME type to image, video, audio or unknown by its top-level prefix. -/
def media_category (m : String) : String :=
  if startsWithStr m "image/" then "image"
  else if startsWithStr m "video/" then "video"
  else if startsWithStr m "audio/" then "audio"
  else "unknown"

/-- Embeds mime_type_to_media.  The source calls mime_type.startswith, so a
None argument (the failure value of get_mime_type) raises AttributeError. -/
def mime_type_to_media : Option String → Except PyErr String
  | none => Except.error PyErr.attributeError
  | some m => Except.ok (media_category m)

/-- Embeds is_image.  As in mime_type_to_media, a None argument raises
AttributeError through the startswith call. -/
def is_image : Option String → Except PyErr Bool
  | none => Except.error PyErr.attributeError
  | some m => Except.ok (startsWithStr m "image/")

/-- Embeds the DEFAULT_THUMBNAIL_CID_HASHES dict as its .get lookup. -/
def DEFAULT_THUMBNAIL_CID_HASHES (key : String) : Option String :=
  if key == "image" then some "bafkreiasdasd"
  else if key == "video" then some "bafkreiasdasd"
  else if key == "audio" then some "bafkreiasdasd"
  else if key == "default" then some "bafkreiasdasd"
  else none

/-- Embeds the expression DEFAULT_THUMBNAIL_CID_HASHES.get of the media type
or-ed with the dict entry at the key default (whose value is the literal
bafkreiasdasd). -/
def default_thumbnail_hash (media_type : String) : String :=
  match DEFAULT_THUMBNAIL_CID_HASHES media_type with
  | some v => if v == "" then "bafkreiasdasd" else v
  | none => "bafkreiasdasd"

/-- The content sub-record of token metadata. -/
structure ContentRec where
  mime : String
  uri : String
  deriving DecidableEq

/-- The token metadata record returned by make_token_metadata. -/
structure TokenMetadata where
  name : String
  description : String
  image : Option String
  animation_url : Option String
  content : Option ContentRec
  attributes : List (List (String × String))
  deriving DecidableEq

/-- Embeds make_token_metadata.  The external MIME probe (get_mime_type,
an HTTP HEAD request returning the Content-Type header or None on any
transport failure) is passed in as the function argument probe.  The source
raises ValueError when the content URL is not fetchable, and otherwise runs
mime_type_to_media and is_image, whose AttributeError on a None MIME type
propagates. -/
def make_token_metadata (probe : String → Option String) (name description : String)
    (media_url thumbnail_url : Option String)
    (attributes : List (List (String × String))) : Except PyErr TokenMetadata :=
  let content_url := media_url
  match get_fetchable_url content_url with
  | none =>
    Except.error (PyErr.valueError ("Content URL (" ++ pyStr content_url ++ ") is not fetchable"))
  | some f =>
    if f == "" then
      Except.error (PyErr.valueError ("Content URL (" ++ pyStr content_url ++ ") is not fetchable"))
    else
      let mime_type := probe f
      match mime_type_to_media mime_type with
      | Except.error e => Except.error e
      | Except.ok media_type =>
        match is_image mime_type with
        | Except.error e => Except.error e
        | Except.ok isImg =>
          let image0 : Option String := if isImg then content_url else thumbnail_url
          let animation_url : Option String := if isImg then none else media_url
          let image : Option String :=
            if pyTruthy image0 then image0
            else some ("ipfs://" ++ default_thumbnail_hash media_type)
          let content : Option ContentRec :=
            if pyTruthy content_url then
              some ⟨pyOr mime_type "application/octet-stream", (content_url.getD "")⟩
            else none
          Except.ok ⟨name, description, image, animation_url, content, attributes⟩

lemma string_data_append (a b : String) : (a ++ b).data = a.data ++ b.data := by
  cases a; cases b; rfl

lemma isPrefixOf_append_self (p t : List Char) : p.isPrefixOf (p ++ t) = true := by
  induction p with
  | nil => simp [List.isPrefixOf]
  | cons c cs ih => simp [List.isPrefixOf, ih]

lemma quote_not_mem_removeQuotes (s : String) : '"' ∉ (removeQuotes s).data := by
  simp [removeQuotes, List.mem_filter]

lemma removeQuotes_eq_self {s : String} (h : '"' ∉ s.data) : removeQuotes s = s := by
  unfold removeQuotes
  cases s with
  | mk l =>
    refine congrArg String.mk (List.filter_eq_self.mpr ?_)
    intro a ha
    exact decide_eq_true (fun he => h (he ▸ ha))

lemma ne_empty_of_startsWith_ipfs {y : String} (h : startsWithStr y "ipfs://" = true) :
    y ≠ "" := by
  intro he
  subst he
  exact absurd h (by decide)

lemma normalize_ipfs_url_forms {u0 y : String}
    (h : normalize_ipfs_url (some u0) = some y) :
    startsWithStr y "ipfs://" = true ∧ '"' ∉ y.data := by
  unfold normalize_ipfs_url at h
  by_cases h0 : u0 = ""
  · simp [h0] at h
  · have hb : (u0 == "") = false := beq_eq_false_iff_ne.mpr h0
    simp only [hb, Bool.false_eq_true, if_false] at h
    by_cases h1 : is_normalized_ipfs_url (some (removeQuotes u0)) = true
    · rw [if_pos h1] at h
      obtain rfl : removeQuotes u0 = y := Option.some.inj h
      refine ⟨?_, quote_not_mem_removeQuotes u0⟩
      simp only [is_normalized_ipfs_url, Bool.and_eq_true] at h1
      exact h1.2
    · rw [if_neg h1] at h
      by_cases h2 : removeQuotes u0 = ""
      · rw [h2] at h
        simp [is_cid, pyTruthy, is_ipfs_url] at h
      · have hc : is_cid (some (removeQuotes u0)) = true := by
          simp [is_cid, pyTruthy, h2]
        rw [if_pos hc] at h
        obtain rfl : "ipfs://" ++ removeQuotes u0 = y := Option.some.inj h
        constructor
        · show ("ipfs://".data).isPrefixOf (("ipfs://" ++ removeQuotes u0).data) = true
          rw [string_data_append]
          exact isPrefixOf_append_self _ _
        · intro hmem
          rw [string_data_append, List.mem_append] at hmem
          rcases hmem with hmem | hmem
          · exact absurd hmem (by decide)
          · exact quote_not_mem_removeQuotes u0 hmem

lemma normalize_fixed_of_normalized {y : String}
    (h1 : startsWithStr y "ipfs://" = true) (h2 : '"' ∉ y.data) :
    normalize_ipfs_url (some y) = some y := by
  have hne : y ≠ "" := ne_empty_of_startsWith_ipfs h1
  have hb : (y == "") = false := beq_eq_false_iff_ne.mpr hne
  have hn : is_normalized_ipfs_url (some y) = true := by
    simp [is_normalized_ipfs_url, pyTruthy, hne, h1]
  unfold normalize_ipfs_url
  simp [hb, removeQuotes_eq_self h2, hn]

lemma replaceAllFuel_of_isPrefixOf (p r : List Char) (f : Nat) (c : Char) (cs : List Char)
    (hp : p.isPrefixOf (c :: cs) = true) :
    ∃ t, replaceAllFuel p r (f + 1) (c :: cs) = r ++ t := by
  refine ⟨replaceAllFuel p r f ((c :: cs).drop p.length), ?_⟩
  simp [replaceAllFuel, hp]

/-- C9: normalize_ipfs_url is idempotent.  Every string already in normalized
form (starting with ipfs:// and containing no double-quote characters) is
returned unchanged, and whenever normalize_ipfs_url returns a non-null
result, normalizing that result again is a no-op. -/
theorem C9_normalize_ipfs_url_idempotent :
    (∀ u : String, startsWithStr u "ipfs://" = true → '"' ∉ u.data →
      normalize_ipfs_url (some u) = some u)
    ∧ (∀ (x : Option String) (y : String), normalize_ipfs_url x = some y →
      normalize_ipfs_url (some y) = some y) := by
  constructor
  · intro u h1 h2
    exact normalize_fixed_of_normalized h1 h2
  · intro x y h
    cases x with
    | none => simp [normalize_ipfs_url] at h
    | some u0 =>
      obtain ⟨hp, hq⟩ := normalize_ipfs_url_forms h
      exact normalize_fixed_of_normalized hp hq

/-- Witness for C9: the spec example ipfs://bafy123 is a fixed point, and the
normalization of bafy123 is a fixed point of a second normalization. -/
theorem C9_normalize_ipfs_url_idempotent_witness :
    normalize_ipfs_url (some "ipfs://bafy123") = some "ipfs://bafy123"
    ∧ normalize_ipfs_url (some "ipfs://bafy123x") = some "ipfs://bafy123x" :=
  ⟨C9_normalize_ipfs_url_idempotent.1 "ipfs://bafy123" (by decide) (by decide),
   C9_normalize_ipfs_url_idempotent.2 (some "bafy123x") "ipfs://bafy123x" (by decide)⟩

/-- C10: whenever normalize_ipfs_url returns a non-null result, that result
starts with ipfs://, and whenever ipfs_gateway_url returns a non-null
result, that result starts with https://ipfs.io/ipfs/ — neither function
ever produces a plaintext http:// URL. -/
theorem C10_no_plaintext_output :
    (∀ (x : Option String) (y : String), normalize_ipfs_url x = some y →
      startsWithStr y "ipfs://" = true)
    ∧ (∀ (x : Option String) (y : String), ipfs_gateway_url x = some y →
      startsWithStr y "https://ipfs.io/ipfs/" = true) := by
  constructor
  · intro x y h
    cases x with
    | none => simp [normalize_ipfs_url] at h
    | some u0 => exact (normalize_ipfs_url_forms h).1
  · intro x y h
    cases x with
    | none => simp [ipfs_gateway_url] at h
    | some u =>
      unfold ipfs_gateway_url at h
      by_cases hu : u = ""
      · simp [hu] at h
      · have hb : (u == "") = false := beq_eq_false_iff_ne.mpr hu
        simp only [hb, Bool.false_eq_true, if_false] at h
        cases hn : normalize_ipfs_url (some u) with
        | none => rw [hn] at h; exact absurd h (by simp)
        | some n =>
          rw [hn] at h
          have hp : startsWithStr n "ipfs://" = true := (normalize_ipfs_url_forms hn).1
          have hne : n ≠ "" := ne_empty_of_startsWith_ipfs hp
          have hbn : (n == "") = false := beq_eq_false_iff_ne.mpr hne
          simp only [hbn, Bool.false_eq_true, if_false] at h
          obtain rfl : replaceAll n "ipfs://" (IPFS_GATEWAY ++ "/ipfs/") = y := Option.some.inj h
          show ("https://ipfs.io/ipfs/".data).isPrefixOf
            (replaceAll n "ipfs://" (IPFS_GATEWAY ++ "/ipfs/")).data = true
          unfold replaceAll
          cases hd : n.data with
          | nil => exact absurd (congrArg String.mk hd) (by simpa using hne)
          | cons c cs =>
            have hp2 : ("ipfs://".data).isPrefixOf (c :: cs) = true := by
              rw [← hd]; exact hp
            obtain ⟨t, ht⟩ :=
              replaceAllFuel_of_isPrefixOf ("ipfs://".data) ((IPFS_GATEWAY ++ "/ipfs/").data)
                cs.length c cs hp2
            show ("https://ipfs.io/ipfs/".data).isPrefixOf
              (replaceAllFuel ("ipfs://".data) ((IPFS_GATEWAY ++ "/ipfs/").data)
                (c :: cs).length (c :: cs)) = true
            rw [List.length_cons, ht]
            have hr : (IPFS_GATEWAY ++ "/ipfs/").data = "https://ipfs.io/ipfs/".data := rfl
            rw [hr]
            exact isPrefixOf_append_self _ _

/-- Witness for C10: concrete applications of both parts at the CID input
bafyW. -/
theorem C10_no_plaintext_output_witness :
    normalize_ipfs_url (some "bafyW") = some "ipfs://bafyW"
    ∧ startsWithStr "ipfs://bafyW" "ipfs://" = true
    ∧ ipfs_gateway_url (some "bafyW") = some "https://ipfs.io/ipfs/bafyW"
    ∧ startsWithStr "https://ipfs.io/ipfs/bafyW" "https://ipfs.io/ipfs/" = true :=
  ⟨by decide,
   C10_no_plaintext_output.1 (some "bafyW") "ipfs://bafyW" (by decide),
   by decide,
   C10_no_plaintext_output.2 (some "bafyW") "https://ipfs.io/ipfs/bafyW" (by decide)⟩

/-- C5: get_fetchable_url returns null for empty input, null (and so also any
non-string, which takes the same falsy / isinstance guard branch) input, and
any URI beginning with the insecure scheme http://. -/
theorem C5_get_fetchable_url_rejects_insecure (uri : Option String)
    (h : uri = none ∨ uri = some ""
      ∨ ∃ u, uri = some u ∧ startsWithStr u "http://" = true) :
    get_fetchable_url uri = none := by
  rcases h with h | h | ⟨u, hu, hs⟩
  · subst h; rfl
  · subst h; rfl
  · subst hu
    have hne : u ≠ "" := by
      intro he
      subst he
      exact absurd hs (by decide)
    have hb : (u == "") = false := beq_eq_false_iff_ne.mpr hne
    unfold get_fetchable_url
    simp [hb, hs]

/-- Witness for C5: the plaintext URL of the spec example is rejected. -/
theorem C5_get_fetchable_url_rejects_insecure_witness :
    ((some "http://insecure.example/x" : Option String) = none
      ∨ (some "http://insecure.example/x" : Option String) = some ""
      ∨ ∃ u, (some "http://insecure.example/x" : Option String) = some u
          ∧ startsWithStr u "http://" = true)
    ∧ get_fetchable_url (some "http://insecure.example/x") = none := by
  have hh : (some "http://insecure.example/x" : Option String) = none
      ∨ (some "http://insecure.example/x" : Option String) = some ""
      ∨ ∃ u, (some "http://insecure.example/x" : Option String) = some u
          ∧ startsWithStr u "http://" = true :=
    Or.inr (Or.inr ⟨"http://insecure.example/x", rfl, by decide⟩)
  exact ⟨hh, C5_get_fetchable_url_rejects_insecure _ hh⟩

/-- C1: evaluation of the code at the gateway-form input of the claim.  The
claim says the result is ipfs://bafy123x=1, but because is_cid classifies
every non-empty string as a CID, the CID branch fires first and the whole
URL is prefixed with ipfs://; the gateway-rewriting branch is unreachable. -/
theorem C1_normalize_gateway_eval :
    normalize_ipfs_url (some "https://gateway.example/ipfs/bafy123?x=1")
      = some "ipfs://https://gateway.example/ipfs/bafy123?x=1"
    ∧ normalize_ipfs_url (some "https://gateway.example/ipfs/bafy123?x=1")
      ≠ some "ipfs://bafy123x=1" := by
  exact ⟨by decide, by decide⟩

/-- C2: evaluation of is_cid at a string with neither the bafy nor the Qm
prefix.  The claim says the result is false, but the try-block stub returns
True for every non-empty string. -/
theorem C2_is_cid_eval :
    is_cid (some "not-a-uri") = true
    ∧ startsWithStr "not-a-uri" "bafy" = false
    ∧ startsWithStr "not-a-uri" "Qm" = false := by
  exact ⟨by decide, by decide, by decide⟩

/-- C3: evaluation of normalize_ipfs_url at the non-URI input of the claim.
The claim says the result is null, but the is_cid stub classifies the input
as a CID and the code returns ipfs://not-a-uri. -/
theorem C3_normalize_non_uri_eval :
    normalize_ipfs_url (some "not-a-uri") = some "ipfs://not-a-uri" := by decide

/-- C4: evaluation of get_fetchable_url at the data URI of the claim.  The
claim says the input passes through unchanged, but the is_cid stub makes
every non-empty string IPFS-normalizeable, so the input is routed through
ipfs_gateway_url and rewritten; the https/data/blob passthrough branch is
unreachable. -/
theorem C4_get_fetchable_data_uri_eval :
    get_fetchable_url (some "data:image/png;base64,AAAA")
      = some "https://ipfs.io/ipfs/data:image/png;base64,AAAA"
    ∧ get_fetchable_url (some "data:image/png;base64,AAAA")
      ≠ some "data:image/png;base64,AAAA" := by
  exact ⟨by decide, by decide⟩

/-- C7: evaluation of make_token_metadata at a fetchable media URL whose MIME
probe fails (get_mime_type returns None).  The claim says the record is
still assembled with media type unknown, but mime_type_to_media calls
startswith on the None value and raises AttributeError. -/
theorem C7_mime_probe_failure_eval :
    make_token_metadata (fun _ => none) "n" "d" (some "ipfs://bafybeic") none []
      = Except.error PyErr.attributeError := rfl

/-- C6: make_token_metadata fails with the ValueError carrying the original
media URL exactly when get_fetchable_url of the media URL is falsy (null or
empty); when the media URL is fetchable the ValueError is never raised, so
in the failing case no metadata record is returned and in no other case is
that error produced. -/
theorem C6_make_token_metadata_error_iff (probe : String → Option String)
    (name description : String) (media_url thumbnail_url : Option String)
    (attributes : List (List (String × String))) :
    (pyTruthy (get_fetchable_url media_url) = false →
      make_token_metadata probe name description media_url thumbnail_url attributes
        = Except.error
            (PyErr.valueError ("Content URL (" ++ pyStr media_url ++ ") is not fetchable")))
    ∧ (pyTruthy (get_fetchable_url media_url) = true →
      ∀ s, make_token_metadata probe name description media_url thumbnail_url attributes
        ≠ Except.error (PyErr.valueError s)) := by
  constructor
  · intro hfal
    cases hg : get_fetchable_url media_url with
    | none =>
      unfold make_token_metadata
      simp only [hg]
    | some f =>
      rw [hg] at hfal
      have hfe : f = "" := by simpa [pyTruthy] using hfal
      subst hfe
      unfold make_token_metadata
      simp only [hg]
      rfl
  · intro ht s
    cases hg : get_fetchable_url media_url with
    | none =>
      rw [hg] at ht
      simp [pyTruthy] at ht
    | some f =>
      rw [hg] at ht
      have hfne : f ≠ "" := by simpa [pyTruthy] using ht
      have hbf : (f == "") = false := beq_eq_false_iff_ne.mpr hfne
      intro hcontra
      unfold make_token_metadata at hcontra
      simp only [hg] at hcontra
      simp only [hbf, Bool.false_eq_true, if_false] at hcontra
      cases hp : probe f with
      | none =>
        simp only [hp, mime_type_to_media] at hcontra
        exact absurd hcontra (by simp)
      | some m =>
        simp only [hp, mime_type_to_media, is_image] at hcontra
        exact Except.noConfusion hcontra

/-- Witness for C6: both parts applied concretely — a plaintext http URL is
not fetchable and produces the ValueError, and a fetchable ipfs URL never
produces it. -/
theorem C6_make_token_metadata_error_iff_witness :
    pyTruthy (get_fetchable_url (some "http://x")) = false
    ∧ make_token_metadata (fun _ => none) "n" "d" (some "http://x") none []
        = Except.error (PyErr.valueError "Content URL (http://x) is not fetchable")
    ∧ pyTruthy (get_fetchable_url (some "ipfs://bafyB")) = true
    ∧ make_token_metadata (fun _ => some "image/png") "n" "d" (some "ipfs://bafyB") none []
        ≠ Except.error (PyErr.valueError "Content URL (ipfs://bafyB) is not fetchable") := by
  refine ⟨by decide, ?_, by decide, ?_⟩
  · exact (C6_make_token_metadata_error_iff (fun _ => none) "n" "d"
      (some "http://x") none []).1 (by decide)
  · exact (C6_make_token_metadata_error_iff (fun _ => some "image/png") "n" "d"
      (some "ipfs://bafyB") none []).2 (by decide) _

/-- C8: image and animation selection of make_token_metadata on every call
that returns a record: an image MIME type yields image = media_url and a
null animation_url; a non-image MIME type with a supplied (truthy) thumbnail
yields image = thumbnail_url and animation_url = media_url; a non-image MIME
type without a thumbnail yields the built-in ipfs:// placeholder selected by
the media type (with the generic default entry as fallback) and
animation_url = media_url; animation_url is null exactly when the content is
an image. -/
theorem C8_make_token_metadata_image_selection (probe : String → Option String)
    (name description : String) (media_url thumbnail_url : Option String)
    (attributes : List (List (String × String))) (md : TokenMetadata) (f m : String)
    (hrun : make_token_metadata probe name description media_url thumbnail_url attributes
      = Except.ok md)
    (hf : get_fetchable_url media_url = some f)
    (hm : probe f = some m) :
    (startsWithStr m "image/" = true → md.image = media_url ∧ md.animation_url = none)
    ∧ (startsWithStr m "image/" = false → pyTruthy thumbnail_url = true →
        md.image = thumbnail_url ∧ md.animation_url = media_url)
    ∧ (startsWithStr m "image/" = false → pyTruthy thumbnail_url = false →
        md.image = some ("ipfs://" ++ default_thumbnail_hash (media_category m))
        ∧ md.animation_url = media_url)
    ∧ (md.animation_url = none ↔ startsWithStr m "image/" = true) := by
  obtain ⟨u, rfl, hune⟩ : ∃ u, media_url = some u ∧ u ≠ "" := by
    cases media_url with
    | none => exact absurd hf (by simp [get_fetchable_url])
    | some u =>
      refine ⟨u, rfl, ?_⟩
      intro he
      subst he
      exact absurd hf (by simp [get_fetchable_url])
  have hmu : pyTruthy (some u) = true := by simp [pyTruthy, hune]
  unfold make_token_metadata at hrun
  simp only [hf] at hrun
  by_cases hfe : f = ""
  · subst hfe
    simp at hrun
  · have hbf : (f == "") = false := beq_eq_false_iff_ne.mpr hfe
    simp only [hbf, Bool.false_eq_true, if_false] at hrun
    simp only [hm, mime_type_to_media, is_image] at hrun
    cases hI : startsWithStr m "image/" with
    | true =>
      rw [hI] at hrun
      simp only [if_true, hmu, Except.ok.injEq] at hrun
      subst hrun
      exact ⟨fun _ => ⟨rfl, rfl⟩, fun hc => absurd hc (by simp),
        fun hc => absurd hc (by simp), by simp⟩
    | false =>
      rw [hI] at hrun
      simp only [Bool.false_eq_true, if_false, Except.ok.injEq] at hrun
      cases hT : pyTruthy thumbnail_url with
      | true =>
        rw [hT] at hrun
        simp only [if_true] at hrun
        subst hrun
        exact ⟨fun hc => absurd hc (by simp), fun _ _ => ⟨rfl, rfl⟩,
          fun _ hc => absurd hc (by simp), by simp⟩
      | false =>
        rw [hT] at hrun
        simp only [Bool.false_eq_true, if_false] at hrun
        subst hrun
        exact ⟨fun hc => absurd hc (by simp), fun _ hc => absurd hc (by simp),
          fun _ _ => ⟨rfl, rfl⟩, by simp⟩

/-- Witness for C8: the image case at a concrete fetchable CID input, with
the record computed explicitly. -/
theorem C8_make_token_metadata_image_selection_witness :
    make_token_metadata (fun _ => some "image/png") "n" "d" (some "ipfs://bafyA") none []
      = Except.ok ⟨"n", "d", some "ipfs://bafyA", none, some ⟨"image/png", "ipfs://bafyA"⟩, []⟩
    ∧ (⟨"n", "d", some "ipfs://bafyA", none, some ⟨"image/png", "ipfs://bafyA"⟩, []⟩
        : TokenMetadata).image = some "ipfs://bafyA"
    ∧ (⟨"n", "d", some "ipfs://bafyA", none, some ⟨"image/png", "ipfs://bafyA"⟩, []⟩
        : TokenMetadata).animation_url = none := by
  have h := C8_make_token_metadata_image_selection (fun _ => some "image/png") "n" "d"
    (some "ipfs://bafyA") none []
    ⟨"n", "d", some "ipfs://bafyA", none, some ⟨"image/png", "ipfs://bafyA"⟩, []⟩
    "https://ipfs.io/ipfs/bafyA" "image/png" rfl (by decide) rfl
  exact ⟨rfl, (h.1 (by decide)).1, (h.1 (by decide)).2⟩
